import Mathlib

/-!
Verification of the organization statistics aggregation engine of
`github-org-stats`.  The JavaScript sources are shallowly embedded as
executable Lean definitions: dates become year/month/day triples with the
lexicographic order, JS objects used as count maps become insertion-ordered
association lists, network calls become explicit oracle functions, and the
asynchronous orchestration of `getOrganization` becomes a sequential fold
(the cooperative single-resumption scheduling model of the app).
-/

set_option autoImplicit false

namespace OrgStats

/-- Model of a JavaScript `Date` at day granularity: `getFullYear()` is
`year`, `getMonth()` is `month` (0-based, always `< 12`), and `day`
stands for everything finer.  Comparison of two dates is lexicographic. -/
structure JsDate where
  year : Int
  month : Fin 12
  day : Nat
deriving DecidableEq, Repr

/-- Lexicographic date comparison, the model of comparing two JS `Date`
values with `<=`. -/
def JsDate.le (a b : JsDate) : Bool :=
  decide (a.year < b.year) ||
    (decide (a.year = b.year) &&
      (decide ((a.month : Nat) < (b.month : Nat)) ||
        (decide (a.month = b.month) && decide (a.day ≤ b.day))))

/-- Strict date comparison, used as the ascending sort order on issues. -/
def JsDate.lt (a b : JsDate) : Bool :=
  JsDate.le a b && !(a = b : Bool)

/-- An element of the GitHub issues listing: `created_at`, optional
`closed_at`, `state`, and whether the `pull_request` field is present. -/
structure Issue where
  created_at : JsDate
  closed_at : Option JsDate
  state : String
  pull_request : Bool
deriving DecidableEq, Repr

/-- An element of the GitHub pull-request listing: `created_at`, `state`,
and the optional `head.ref` branch name. -/
structure PullReq where
  created_at : JsDate
  state : String
  head : Option String
deriving DecidableEq, Repr

/-- A weekly bucket of a contributor-statistics record: `w` is the week
start (the JS code converts `week.w * 1000` to a `Date`, modelled here
directly as the date) and `c` is the commit count for the week. -/
structure Week where
  w : JsDate
  c : Nat
deriving DecidableEq, Repr

/-- One contributor entry of a contributor-statistics response:
`author?.login` and the list of weekly buckets. -/
structure Contributor where
  author : Option String
  weeks : List Week
deriving DecidableEq, Repr

/-- An element of the organization member listing. -/
structure Member where
  login : String
deriving DecidableEq, Repr

/-- An element of the organization repository listing. -/
structure Repo where
  name : String
  fork : Bool
  stargazers_count : Nat
  created_at : JsDate
  archived_at : Option JsDate
deriving DecidableEq, Repr

/-! ### JS objects used as count maps

A JS object literal used as `types[t] = (types[t] || 0) + 1` preserves
key insertion order; it is embedded as an association list where an
update rewrites the existing entry in place and a fresh key is appended. -/

/-- Lookup of `h[k]`, with `0` for an absent key (the `|| 0` idiom). -/
def histGet : List (String × Nat) → String → Nat
  | [], _ => 0
  | p :: rest, k => if p.1 == k then p.2 else histGet rest k

/-- `h[k] = (h[k] || 0) + n`: in-place update of an existing key,
append of a fresh key. -/
def histAdd : List (String × Nat) → String → Nat → List (String × Nat)
  | [], k, n => [(k, n)]
  | p :: rest, k, n => if p.1 == k then (p.1, p.2 + n) :: rest else p :: histAdd rest k n

/-- `h[k] = (h[k] || 0) + 1`. -/
def histInc (h : List (String × Nat)) (k : String) : List (String × Nat) :=
  histAdd h k 1

/-- JS `s.includes("/")`: whether the string has a `/` character. -/
def includesSlash (s : String) : Bool :=
  s.data.any (fun c => c == '/')

/-- JS `s.split("/")[0]`: the part of the string before the first `/`
(the whole string when there is no `/`). -/
def splitSlashHead (s : String) : String :=
  String.mk (s.data.takeWhile (fun c => c != '/'))

/-- JS `s.toLowerCase()` on character data. -/
def jsToLower (s : String) : String :=
  String.mk (s.data.map Char.toLower)

/-- `StatsCalculator.categorizePRTypes`: count only pull requests whose
`state` is `"closed"`; the bucket of a PR is the part of `head.ref`
before the first `/` lower-cased when the ref contains a `/`, and
`"unknown"` when it does not or when `head.ref` is absent. -/
def categorizePRTypes (prs : List PullReq) : List (String × Nat) :=
  let closedPRs := prs.filter (fun pr => pr.state == "closed")
  closedPRs.foldl
    (fun types pr =>
      match pr.head with
      | some ref =>
          let t := if includesSlash ref then jsToLower (splitSlashHead ref)
                   else "unknown"
          histInc types t
      | none => histInc types "unknown")
    []

/-- The bucket a pull request falls into, stated from the specification:
the `branchRef` substring before the first `/` separator lower-cased, or
`"unknown"` when the ref has no separator or branch metadata is absent.
Used as the comparison point for the `categorizePRTypes` theorems. -/
def specPRType : Option String → String
  | none => "unknown"
  | some ref =>
      if includesSlash ref then jsToLower (splitSlashHead ref) else "unknown"

theorem histGet_histAdd (h : List (String × Nat)) (k t : String) (n : Nat) :
    histGet (histAdd h k n) t = histGet h t + (if t = k then n else 0) := by
  induction h with
  | nil =>
      by_cases hk : k = t
      · subst hk; simp [histAdd, histGet]
      · have h1 : (k == t) = false := beq_eq_false_iff_ne.mpr hk
        have h2 : ¬ t = k := fun e => hk e.symm
        simp [histAdd, histGet, h1, h2]
  | cons p rest ih =>
      obtain ⟨a, v⟩ := p
      by_cases hak : a = k
      · subst hak
        by_cases hat : a = t
        · subst hat
          simp [histAdd, histGet]
        · have h1 : (a == t) = false := beq_eq_false_iff_ne.mpr hat
          have h2 : ¬ t = a := fun e => hat e.symm
          simp [histAdd, histGet, h1, h2]
      · have h1 : (a == k) = false := beq_eq_false_iff_ne.mpr hak
        by_cases hat : a = t
        · subst hat
          have h2 : ¬ a = k := hak
          simp [histAdd, histGet, h1, h2]
        · have h2 : (a == t) = false := beq_eq_false_iff_ne.mpr hat
          simp [histAdd, histGet, h1, h2, ih]

theorem histGet_histInc (h : List (String × Nat)) (k t : String) :
    histGet (histInc h k) t = histGet h t + (if t = k then 1 else 0) :=
  histGet_histAdd h k t 1

theorem categorize_step_eq (h : List (String × Nat)) (pr : PullReq) :
    (match pr.head with
     | some ref =>
         let t := if includesSlash ref then jsToLower (splitSlashHead ref)
                  else "unknown"
         histInc h t
     | none => histInc h "unknown") = histInc h (specPRType pr.head) := by
  cases pr.head <;> rfl

theorem categorizePRTypes_foldl (prs : List PullReq) (h : List (String × Nat))
    (t : String) :
    histGet (prs.foldl
      (fun types pr =>
        match pr.head with
        | some ref =>
            let ty := if includesSlash ref then jsToLower (splitSlashHead ref)
                      else "unknown"
            histInc types ty
        | none => histInc types "unknown") h) t
      = histGet h t + (prs.countP (fun pr => specPRType pr.head == t)) := by
  induction prs generalizing h with
  | nil => simp
  | cons pr rest ih =>
      simp only [List.foldl_cons, List.countP_cons]
      rw [categorize_step_eq h pr, ih, histGet_histInc]
      have hsame : (if t = specPRType pr.head then (1 : Nat) else 0)
          = (if (specPRType pr.head == t) = true then 1 else 0) := by
        by_cases ht : t = specPRType pr.head
        · simp [ht]
        · have h1 : (specPRType pr.head == t) = false :=
            beq_eq_false_iff_ne.mpr (fun e => ht e.symm)
          simp [ht, h1]
      rw [hsame]
      omega

/-- C8: `categorizePRTypes` counts exactly the closed pull requests, each
in the bucket named by the part of its `branchRef` before the first `/`
lower-cased (`"unknown"` without a separator or without branch metadata);
in particular `"feature/login"` lands in `"feature"`, `"hotfix"` in
`"unknown"`, and a PR with no branch metadata in `"unknown"`. -/
theorem c8_categorizePRTypes_spec :
    (∀ (prs : List PullReq) (t : String),
      histGet (categorizePRTypes prs) t
        = (prs.filter (fun pr => pr.state == "closed")).countP
            (fun pr => specPRType pr.head == t)) ∧
    histGet (categorizePRTypes [⟨⟨2024, 0, 1⟩, "closed", some "feature/login"⟩]) "feature" = 1 ∧
    histGet (categorizePRTypes [⟨⟨2024, 0, 1⟩, "closed", some "hotfix"⟩]) "unknown" = 1 ∧
    histGet (categorizePRTypes [⟨⟨2024, 0, 1⟩, "closed", none⟩]) "unknown" = 1 := by
  refine ⟨fun prs t => ?_, by decide, by decide, by decide⟩
  unfold categorizePRTypes
  rw [categorizePRTypes_foldl]
  simp [histGet]

/-- C10: a closed pull request whose `branchRef` is `"/login"` (separator
present, empty segment before it) is counted under the empty-string
bucket, not under `"unknown"`: the histogram carries an `""` key. -/
theorem c10_empty_prefix_bucket :
    categorizePRTypes [⟨⟨2024, 0, 1⟩, "closed", some "/login"⟩] = [("", 1)] ∧
    histGet (categorizePRTypes [⟨⟨2024, 0, 1⟩, "closed", some "/login"⟩]) "" = 1 ∧
    histGet (categorizePRTypes [⟨⟨2024, 0, 1⟩, "closed", some "/login"⟩]) "unknown" = 0 := by
  refine ⟨by decide, by decide, by decide⟩

/-! ### Contributor-statistics retry (`getContributorStatsWithRetry`) -/

/-- Outcome of one attempt at `repos.getContributorsStats`: a thrown
error, a `202 Accepted` response (stats still being computed, no array
body), or a completed response whose `data` may or may not be an array. -/
inductive FetchOutcome where
  | fetchErr : FetchOutcome
  | pending : FetchOutcome
  | done : Option (List Contributor) → FetchOutcome
deriving DecidableEq, Repr

/-- Trace of one run of the retry loop: the returned data, the total
number of requests made, and the delays (ms) slept between attempts. -/
structure RetryRun where
  data : List Contributor
  attempts : Nat
  delays : List Nat
deriving DecidableEq, Repr

/-- `getContributorStatsWithRetry(owner, repo, retries = 3)`: issue the
request; on a 202 status with retries left, sleep 1000 ms and recurse
with one retry fewer; otherwise return `response.data` when it is an
array and `[]` when it is not; any thrown error yields `[]`.  `fetch n`
is the outcome of the `n`-th request (0-based); `attempt` counts the
requests already made. -/
def getContributorStatsWithRetry (fetch : Nat → FetchOutcome) :
    Nat → Nat → RetryRun
  | retries, attempt =>
    match fetch attempt, retries with
    | .fetchErr, _ => ⟨[], attempt + 1, []⟩
    | .done d, _ => ⟨d.getD [], attempt + 1, []⟩
    | .pending, 0 => ⟨[], attempt + 1, []⟩
    | .pending, r + 1 =>
        let res := getContributorStatsWithRetry fetch r (attempt + 1)
        ⟨res.data, res.attempts, 1000 :: res.delays⟩

theorem retry_attempts_lower (fetch : Nat → FetchOutcome) (retries attempt : Nat) :
    attempt + 1 ≤ (getContributorStatsWithRetry fetch retries attempt).attempts := by
  induction retries generalizing attempt with
  | zero =>
      unfold getContributorStatsWithRetry
      cases fetch attempt <;> simp
  | succ r ih =>
      unfold getContributorStatsWithRetry
      cases fetch attempt <;> simp
      exact le_trans (Nat.le_succ _) (ih (attempt + 1))

theorem retry_attempts_upper (fetch : Nat → FetchOutcome) (retries attempt : Nat) :
    (getContributorStatsWithRetry fetch retries attempt).attempts ≤ attempt + retries + 1 := by
  induction retries generalizing attempt with
  | zero =>
      unfold getContributorStatsWithRetry
      cases fetch attempt <;> simp
  | succ r ih =>
      unfold getContributorStatsWithRetry
      cases fetch attempt with
      | fetchErr => simp
      | done d => simp
      | pending =>
          simp only []
          calc (getContributorStatsWithRetry fetch r (attempt + 1)).attempts
              ≤ attempt + 1 + r + 1 := ih (attempt + 1)
            _ = attempt + (r + 1) + 1 := by omega

theorem retry_delays_shape (fetch : Nat → FetchOutcome) (retries attempt : Nat) :
    (getContributorStatsWithRetry fetch retries attempt).delays
      = List.replicate
          ((getContributorStatsWithRetry fetch retries attempt).attempts - (attempt + 1))
          1000 := by
  induction retries generalizing attempt with
  | zero =>
      unfold getContributorStatsWithRetry
      cases fetch attempt <;> simp
  | succ r ih =>
      unfold getContributorStatsWithRetry
      cases fetch attempt <;> simp
      have hlow := retry_attempts_lower fetch r (attempt + 1)
      rw [ih (attempt + 1)]
      have : (getContributorStatsWithRetry fetch r (attempt + 1)).attempts - (attempt + 1)
          = ((getContributorStatsWithRetry fetch r (attempt + 1)).attempts - (attempt + 1 + 1)) + 1 := by
        omega
      rw [this, List.replicate_succ]

theorem retry_err_empty (fetch : Nat → FetchOutcome) (retries attempt : Nat)
    (h : fetch ((getContributorStatsWithRetry fetch retries attempt).attempts - 1) = .fetchErr) :
    (getContributorStatsWithRetry fetch retries attempt).data = [] := by
  induction retries generalizing attempt with
  | zero =>
      cases hf : fetch attempt with
      | fetchErr => simp [getContributorStatsWithRetry, hf]
      | pending => simp [getContributorStatsWithRetry, hf] at h
      | done d => simp [getContributorStatsWithRetry, hf] at h
  | succ r ih =>
      cases hf : fetch attempt with
      | fetchErr => simp [getContributorStatsWithRetry, hf]
      | done d => simp [getContributorStatsWithRetry, hf] at h
      | pending =>
          simp only [getContributorStatsWithRetry, hf] at h ⊢
          exact ih (attempt + 1) h

/-- C4: the retry loop for contributor statistics makes at most 3 retries
beyond the initial request, sleeps exactly 1000 ms between consecutive
attempts, returns the empty list when the request that ended the loop
threw, and under a permanently pending service performs exactly 4
requests with three 1-second delays and degrades to the empty result. -/
theorem c4_retry_policy (fetch : Nat → FetchOutcome) :
    ((getContributorStatsWithRetry fetch 3 0).attempts ≤ 4) ∧
    ((getContributorStatsWithRetry fetch 3 0).delays
      = List.replicate ((getContributorStatsWithRetry fetch 3 0).attempts - 1) 1000) ∧
    (fetch ((getContributorStatsWithRetry fetch 3 0).attempts - 1) = .fetchErr →
      (getContributorStatsWithRetry fetch 3 0).data = []) ∧
    ((∀ n, fetch n = .pending) →
      getContributorStatsWithRetry fetch 3 0 = ⟨[], 4, [1000, 1000, 1000]⟩) := by
  refine ⟨retry_attempts_upper fetch 3 0, retry_delays_shape fetch 3 0,
    retry_err_empty fetch 3 0, fun hp => ?_⟩
  simp [getContributorStatsWithRetry, hp 0, hp 1, hp 2, hp 3]

/-- Witness for `c4_retry_policy` at the permanently pending oracle. -/
theorem c4_retry_policy_witness :
    getContributorStatsWithRetry (fun _ => FetchOutcome.pending) 3 0
      = ⟨[], 4, [1000, 1000, 1000]⟩ :=
  (c4_retry_policy (fun _ => FetchOutcome.pending)).2.2.2 (fun _ => rfl)

/-! ### Paginator (`getAllPages`) -/

/-- Whether character list `pat` occurs as a prefix of `s`. -/
def charsIsPrefOf : List Char → List Char → Bool
  | [], _ => true
  | _ :: _, [] => false
  | a :: as, b :: bs => a == b && charsIsPrefOf as bs

/-- Whether character list `pat` occurs contiguously inside `s`. -/
def charsHasSubstr (pat : List Char) : List Char → Bool
  | [] => pat.isEmpty
  | c :: rest => charsIsPrefOf pat (c :: rest) || charsHasSubstr pat rest

/-- JS `s.includes(pat)` on string data. -/
def strIncludes (s pat : String) : Bool :=
  charsHasSubstr pat.data s.data

/-- One page response: the `data` items and the `Link` response header. -/
structure PageResponse (α : Type) where
  data : List α
  link : Option String
deriving DecidableEq, Repr

/-- JS `linkHeader && linkHeader.includes('rel="next"')`: an absent
header is falsy, a present one is scanned for the `next` relation. -/
def includesRelNext (link : Option String) : Bool :=
  match link with
  | none => false
  | some s => strIncludes s "rel=\"next\""

/-- `getAllPages(method, params)`: request pages starting at 1, always
with `per_page = 100`, appending each response's `data`, and loop while
the response's `Link` header carries a `next` relation.  `method p n` is
the response to a request for page `p` with page size `n`; `fuel` bounds
the number of iterations so that the (possibly nonterminating) JS while
loop is total, returning `none` when fuel runs out. -/
def getAllPages {α : Type} (method : Nat → Nat → PageResponse α) :
    Nat → Nat → List α → Option (List α)
  | 0, _, _ => none
  | fuel + 1, page, allData =>
      let response := method page 100
      let allData2 := allData ++ response.data
      if includesRelNext response.link then getAllPages method fuel (page + 1) allData2
      else some allData2

theorem getAllPages_drains {α : Type} (method : Nat → Nat → PageResponse α)
    (N : Nat)
    (hnext : ∀ q, 1 ≤ q → q < N → includesRelNext (method q 100).link = true)
    (hstop : includesRelNext (method N 100).link = false) :
    ∀ fuel p acc, 1 ≤ p → p ≤ N → N + 1 ≤ p + fuel →
      getAllPages method fuel p acc
        = some (acc ++ ((List.range' p (N + 1 - p)).map
            (fun q => (method q 100).data)).flatten) := by
  intro fuel
  induction fuel with
  | zero => intro p acc h1 h2 h3; omega
  | succ f ih =>
      intro p acc h1 h2 h3
      by_cases hp : p = N
      · subst hp
        have hr : p + 1 - p = 1 := by omega
        simp [getAllPages, hstop, hr, List.range']
      · have hlt : p < N := lt_of_le_of_ne h2 hp
        have hnx := hnext p h1 hlt
        have hrec := ih (p + 1) (acc ++ (method p 100).data) (by omega) (by omega) (by omega)
        have hr : N + 1 - p = (N - p) + 1 := by omega
        have hr2 : N + 1 - (p + 1) = N - p := by omega
        rw [hr2] at hrec
        simp only [getAllPages, hnx, if_true, hrec, hr, List.range', List.map_cons,
          List.flatten_cons, List.append_assoc]

/-- C7 amended: the paginator returns the concatenation of the pages'
items in server order; every request uses page size 100 (the result
depends on the page-fetch operation only at page size 100); and the loop
stops exactly when a page's `Link` header lacks the `next` relation —
an empty page with a `next` relation does not stop it. -/
theorem c7_pagination {α : Type} (method : Nat → Nat → PageResponse α)
    (N fuel : Nat)
    (hnext : ∀ q, 1 ≤ q → q < N → includesRelNext (method q 100).link = true)
    (hstop : includesRelNext (method N 100).link = false)
    (hN : 1 ≤ N) (hfuel : N ≤ fuel) :
    getAllPages method fuel 1 []
      = some (((List.range' 1 N).map (fun q => (method q 100).data)).flatten) := by
  have h := getAllPages_drains method N hnext hstop fuel 1 [] (le_refl 1) hN (by omega)
  rw [h]
  have : N + 1 - 1 = N := by omega
  rw [this, List.nil_append]

/-- A two-page server whose first page is empty but still advertises a
`next` relation; the paginator must keep going and return page 2's item. -/
def c7server : Nat → Nat → PageResponse Nat :=
  fun page _ =>
    if page = 1 then ⟨[], some "<https://x>; rel=\"next\""⟩
    else ⟨[42], none⟩

/-- C7 counterexample: the loop does not terminate on an empty page —
page 1 is empty yet carries a `next` relation, and the paginator
continues, returning the item of page 2 instead of stopping empty. -/
theorem c7_counterexample :
    (c7server 1 100).data = [] ∧
    includesRelNext (c7server 1 100).link = true ∧
    getAllPages c7server 10 1 [] = some [42] ∧
    getAllPages c7server 10 1 [] ≠ some [] := by
  refine ⟨rfl, by decide, by decide, by decide⟩

/-- Witness for `c7_pagination`: a concrete 2-page server drained into
the concatenation of its pages. -/
theorem c7_pagination_witness :
    getAllPages (fun page _ =>
      if page = 1 then (⟨[1, 2], some "; rel=\"next\""⟩ : PageResponse Nat)
      else ⟨[3], none⟩) 5 1 [] = some [1, 2, 3] := by
  have h := c7_pagination (fun page _ =>
      if page = 1 then (⟨[1, 2], some "; rel=\"next\""⟩ : PageResponse Nat)
      else ⟨[3], none⟩) 2 5
    (by intro q hq1 hq2; interval_cases q; decide) (by decide) (by decide) (by decide)
  rw [h]
  decide

/-! ### Cache store (`saveToCache` / `getFromCache`) -/

/-- `CACHE_EXPIRATION`: 24 hours in milliseconds. -/
def CACHE_EXPIRATION : Int := 24 * 60 * 60 * 1000

/-- The envelope stored under the single `localStorage` cache slot:
write time, the organization name the entry is for, and the payload. -/
structure CacheEntry (α : Type) where
  timestamp : Int
  orgName : String
  data : α
deriving DecidableEq, Repr

/-- `saveToCache(orgName, data)`: overwrite the cache slot with a fresh
envelope stamped `now`, regardless of what was stored. -/
def saveToCache {α : Type} (now : Int) (orgName : String) (data : α)
    (_store : Option (CacheEntry α)) : Option (CacheEntry α) :=
  some ⟨now, orgName, data⟩

/-- `getFromCache(orgName)`: nothing stored gives `null`; a stored
envelope for a different organization or older than the TTL is removed
and gives `null`; otherwise the payload is returned and the slot kept.
The pair is (returned value, cache slot after the call). -/
def getFromCache {α : Type} (now : Int) (orgName : String)
    (store : Option (CacheEntry α)) : Option α × Option (CacheEntry α) :=
  match store with
  | none => (none, none)
  | some cache =>
      if cache.orgName ≠ orgName ∨ now - cache.timestamp > CACHE_EXPIRATION then
        (none, none)
      else
        (some cache.data, some cache)

/-- C6: a stored entry is treated as absent and purged exactly when its
key differs from the requested one or its age exceeds the 24-hour TTL;
a fresh matching entry's payload is returned with the slot kept; and
`save` overwrites the slot unconditionally. -/
theorem c6_cache_semantics :
    (∀ (α : Type) (now : Int) (org : String) (e : CacheEntry α),
      getFromCache now org (some e) = (none, none)
        ↔ (e.orgName ≠ org ∨ now - e.timestamp > CACHE_EXPIRATION)) ∧
    (∀ (α : Type) (now : Int) (org : String) (e : CacheEntry α),
      e.orgName = org → now - e.timestamp ≤ CACHE_EXPIRATION →
      getFromCache now org (some e) = (some e.data, some e)) ∧
    (∀ (α : Type) (now : Int) (org : String) (data : α)
      (store : Option (CacheEntry α)),
      saveToCache now org data store = some ⟨now, org, data⟩) := by
  refine ⟨fun α now org e => ?_, fun α now org e h1 h2 => ?_, fun _ _ _ _ _ => rfl⟩
  · constructor
    · intro h
      by_contra hc
      rw [getFromCache, if_neg hc] at h
      exact Option.noConfusion (congrArg Prod.fst h)
    · intro h
      rw [getFromCache, if_pos h]
  · have hc : ¬ (e.orgName ≠ org ∨ now - e.timestamp > CACHE_EXPIRATION) := by
      push_neg
      exact ⟨h1, h2⟩
    rw [getFromCache, if_neg hc]

/-- Witness for `c6_cache_semantics` on a concrete fresh entry. -/
theorem c6_cache_semantics_witness :
    getFromCache 5 "acme" (some (⟨0, "acme", (42 : Nat)⟩ : CacheEntry Nat))
      = (some 42, some ⟨0, "acme", 42⟩) :=
  c6_cache_semantics.2.1 Nat 5 "acme" ⟨0, "acme", 42⟩ rfl (by decide)

/-! ### `StatsCalculator.calculateMonthlyIssueStats` -/

/-- One slot of the 12-month series: issues opened that month, issues
closed that month, and the running open-issue total written for it. -/
structure MonthStat where
  opened : Nat
  closed : Nat
  total : Int
deriving DecidableEq, Repr

/-- The 12-slot array `Array(12).fill().map(() => ({...}))`, embedded as
a function out of `Fin 12`. -/
abbrev Monthly := Fin 12 → MonthStat

/-- All slots start at `{opened: 0, closed: 0, total: 0}`. -/
def monthlyInit : Monthly := fun _ => ⟨0, 0, 0⟩

/-- `monthlyStats[m].opened++`. -/
def incOpened (s : Monthly) (m : Fin 12) : Monthly :=
  fun i => if i = m then { s i with opened := (s i).opened + 1 } else s i

/-- `monthlyStats[m].closed++`. -/
def incClosed (s : Monthly) (m : Fin 12) : Monthly :=
  fun i => if i = m then { s i with closed := (s i).closed + 1 } else s i

/-- `for (let i = month; i < 12; i++) monthlyStats[i].total = v`. -/
def setTotalsFrom (s : Monthly) (m : Fin 12) (v : Int) : Monthly :=
  fun i => if m ≤ i then { s i with total := v } else s i

/-- The body of the `sortedIssues.forEach` loop: for an issue created in
or before `year`, bump `opened` and the running total when it was created
in `year` (only the running total when created earlier), bump `closed`
and drop the running total when it was closed in `year`, and finally
write the running total into every slot from the creation month on when
the issue was created in `year`. -/
def processIssue (year : Int) (acc : Monthly × Int) (issue : Issue) :
    Monthly × Int :=
  if issue.created_at.year ≤ year then
    let acc1 : Monthly × Int :=
      if issue.created_at.year = year then
        (incOpened acc.1 issue.created_at.month, acc.2 + 1)
      else
        (acc.1, acc.2 + 1)
    let acc2 : Monthly × Int :=
      match issue.closed_at with
      | some cd =>
          if cd.year = year then (incClosed acc1.1 cd.month, acc1.2 - 1)
          else acc1
      | none => acc1
    let stats3 : Monthly :=
      if issue.created_at.year = year then
        setTotalsFrom acc2.1 issue.created_at.month acc2.2
      else acc2.1
    (stats3, acc2.2)
  else acc

/-- Stable insertion of an issue into a list sorted by creation date. -/
def orderedInsertByCreated (a : Issue) : List Issue → List Issue
  | [] => [a]
  | b :: l =>
      if JsDate.le a.created_at b.created_at then a :: b :: l
      else b :: orderedInsertByCreated a l

/-- The JS stable `sort((a, b) => new Date(a.created_at) - new
Date(b.created_at))`, embedded as a stable insertion sort on the
creation date. -/
def sortByCreated : List Issue → List Issue
  | [] => []
  | a :: l => orderedInsertByCreated a (sortByCreated l)

/-- `StatsCalculator.calculateMonthlyIssueStats(issues, year)`: drop
pull requests, sort by creation date ascending, and fold `processIssue`
over the result starting from the all-zero series and a zero running
total. -/
def calculateMonthlyIssueStats (issues : List Issue) (year : Int) : Monthly :=
  ((sortByCreated (issues.filter (fun i => !i.pull_request))).foldl
    (processIssue year) (monthlyInit, 0)).1

/-- The carry-forward invariant of the series: a month in which nothing
was opened keeps the previous month's running total (and month 0 keeps
the initial 0). -/
def CarryInv (s : Monthly) : Prop :=
  ((s 0).opened = 0 → (s 0).total = 0) ∧
  ∀ m : Fin 12, 0 < (m : Nat) → (s m).opened = 0 →
    (s m).total = (s ⟨(m : Nat) - 1, Nat.lt_of_le_of_lt (Nat.sub_le _ _) m.isLt⟩).total

theorem carryInv_init : CarryInv monthlyInit :=
  ⟨fun _ => rfl, fun _ _ _ => rfl⟩

theorem carryInv_incOpened (s : Monthly) (mo : Fin 12) (h : CarryInv s) :
    CarryInv (incOpened s mo) := by
  constructor
  · intro h0
    by_cases he : (0 : Fin 12) = mo
    · exfalso
      simp only [incOpened, if_pos he] at h0
      omega
    · simp only [incOpened, if_neg he] at h0 ⊢
      exact h.1 h0
  · intro m hm hop
    by_cases he : m = mo
    · exfalso
      simp only [incOpened, if_pos he] at hop
      omega
    · simp only [incOpened, if_neg he] at hop ⊢
      by_cases he2 : (⟨(m : Nat) - 1, Nat.lt_of_le_of_lt (Nat.sub_le _ _) m.isLt⟩ : Fin 12) = mo
      · simp only [if_pos he2]
        exact h.2 m hm hop
      · simp only [if_neg he2]
        exact h.2 m hm hop

theorem carryInv_incClosed (s : Monthly) (mc : Fin 12) (h : CarryInv s) :
    CarryInv (incClosed s mc) := by
  constructor
  · intro h0
    by_cases he : (0 : Fin 12) = mc
    · simp only [incClosed, if_pos he] at h0 ⊢
      exact h.1 h0
    · simp only [incClosed, if_neg he] at h0 ⊢
      exact h.1 h0
  · intro m hm hop
    have hopeq : (incClosed s mc m).opened = (s m).opened := by
      unfold incClosed
      by_cases he : m = mc
      · simp [he]
      · simp [he]
    rw [hopeq] at hop
    have base := h.2 m hm hop
    have t1 : (incClosed s mc m).total = (s m).total := by
      unfold incClosed
      by_cases he : m = mc
      · simp [he]
      · simp [he]
    have t2 : ∀ k : Fin 12, (incClosed s mc k).total = (s k).total := by
      intro k
      unfold incClosed
      by_cases he : k = mc
      · simp [he]
      · simp [he]
    rw [t2, t2]
    exact base

theorem carryInv_setTotalsFrom (s : Monthly) (mo : Fin 12) (v : Int)
    (h : CarryInv s) (hopened : (s mo).opened ≠ 0) :
    CarryInv (setTotalsFrom s mo v) := by
  have hopeq : ∀ k : Fin 12, (setTotalsFrom s mo v k).opened = (s k).opened := by
    intro k
    unfold setTotalsFrom
    by_cases he : mo ≤ k
    · simp [he]
    · simp [he]
  constructor
  · intro h0
    rw [hopeq] at h0
    have hne : ¬ mo ≤ (0 : Fin 12) := by
      intro hle
      have : mo = 0 := le_antisymm hle (Fin.zero_le mo)
      rw [this] at hopened
      exact hopened h0
    simp only [setTotalsFrom, if_neg hne]
    exact h.1 h0
  · intro m hm hop
    rw [hopeq] at hop
    have hmo_ne : mo ≠ m := by
      intro he
      rw [he] at hopened
      exact hopened hop
    by_cases hle : mo ≤ m
    · have hlt : (mo : Nat) < (m : Nat) :=
        lt_of_le_of_ne (Fin.le_def.mp hle) (fun e => hmo_ne (Fin.ext e))
      have hle2 : mo ≤ (⟨(m : Nat) - 1, Nat.lt_of_le_of_lt (Nat.sub_le _ _) m.isLt⟩ : Fin 12) := by
        rw [Fin.le_def]
        show (mo : Nat) ≤ (m : Nat) - 1
        omega
      simp only [setTotalsFrom, if_pos hle, if_pos hle2]
    · have hle2 : ¬ mo ≤ (⟨(m : Nat) - 1, Nat.lt_of_le_of_lt (Nat.sub_le _ _) m.isLt⟩ : Fin 12) := by
        intro hc
        apply hle
        rw [Fin.le_def] at hc
        have hv : (mo : Nat) ≤ (m : Nat) - 1 := hc
        rw [Fin.le_def]
        omega
      simp only [setTotalsFrom, if_neg hle, if_neg hle2]
      exact h.2 m hm hop

theorem carryInv_processIssue (year : Int) (acc : Monthly × Int) (issue : Issue)
    (h : CarryInv acc.1) : CarryInv (processIssue year acc issue).1 := by
  unfold processIssue
  by_cases hc : issue.created_at.year ≤ year
  · simp only [hc, if_true]
    by_cases hy : issue.created_at.year = year
    · simp only [hy, if_true]
      cases hcl : issue.closed_at with
      | none =>
          simp only []
          apply carryInv_setTotalsFrom
          · exact carryInv_incOpened acc.1 issue.created_at.month h
          · simp [incOpened]
      | some cd =>
          by_cases hcy : cd.year = year
          · simp only [hcy, if_true]
            apply carryInv_setTotalsFrom
            · exact carryInv_incClosed _ cd.month
                (carryInv_incOpened acc.1 issue.created_at.month h)
            · by_cases he : issue.created_at.month = cd.month
              · simp [incClosed, incOpened, he]
              · have he2 : ¬ (issue.created_at.month = cd.month) := he
                simp [incClosed, incOpened, he2]
          · simp only [hcy, if_false]
            apply carryInv_setTotalsFrom
            · exact carryInv_incOpened acc.1 issue.created_at.month h
            · simp [incOpened]
    · simp only [hy, if_false]
      cases hcl : issue.closed_at with
      | none => simpa using h
      | some cd =>
          by_cases hcy : cd.year = year
          · simp only [hcy, if_true]
            exact carryInv_incClosed acc.1 cd.month h
          · simpa [hcy] using h
  · simp only [hc, if_false]
    exact h

theorem carryInv_foldl (year : Int) (l : List Issue) (acc : Monthly × Int)
    (h : CarryInv acc.1) : CarryInv ((l.foldl (processIssue year) acc)).1 := by
  induction l generalizing acc with
  | nil => exact h
  | cons a rest ih =>
      exact ih (processIssue year acc a) (carryInv_processIssue year acc a h)

/-- C3 amended: in the series of `calculateMonthlyIssueStats`, a month
with no issue opened in it carries the previous month's running total
forward unchanged (month 0 keeps the initial 0); the full recurrence
`total[m] = total[m-1] + opened[m] - closed[m]` is not what the code
maintains, since a closure is subtracted from the running total before
it is written back starting at the issue's creation month. -/
theorem c3_carry_forward (issues : List Issue) (year : Int) :
    ((calculateMonthlyIssueStats issues year 0).opened = 0 →
      (calculateMonthlyIssueStats issues year 0).total = 0) ∧
    (∀ m : Fin 12, 0 < (m : Nat) →
      (calculateMonthlyIssueStats issues year m).opened = 0 →
      (calculateMonthlyIssueStats issues year m).total
        = (calculateMonthlyIssueStats issues year
            ⟨(m : Nat) - 1, Nat.lt_of_le_of_lt (Nat.sub_le _ _) m.isLt⟩).total) := by
  have h := carryInv_foldl year
    (sortByCreated (issues.filter (fun i => !i.pull_request)))
    (monthlyInit, 0) carryInv_init
  exact ⟨h.1, h.2⟩

/-- Series of the C3 counterexample run: a single issue created in
January of the year and closed in March of the same year. -/
def c3series : Monthly :=
  calculateMonthlyIssueStats
    [⟨⟨2024, 0, 1⟩, some ⟨2024, 2, 1⟩, "closed", false⟩] 2024

/-- C3 counterexample: with one issue created in January 2024 and closed
in March 2024, January's slot is recomputed with `opened = 1`,
`closed = 0`, yet `total = 0`, violating
`total[m] = total[m-1] + opened[m] - closed[m]` (which demands 1); March
is also recomputed with `closed = 1` yet keeps `total = 0` instead of
`total[1] - 1`. -/
theorem c3_counterexample :
    (c3series 0).opened = 1 ∧ (c3series 0).closed = 0 ∧ (c3series 0).total = 0 ∧
    (c3series 0).total ≠ 0 + ((c3series 0).opened : Int) - ((c3series 0).closed : Int) ∧
    (c3series 2).closed = 1 ∧ (c3series 1).total = 0 ∧
    (c3series 2).total ≠ (c3series 1).total + ((c3series 2).opened : Int)
      - ((c3series 2).closed : Int) := by
  refine ⟨by decide, by decide, by decide, by decide, by decide, by decide, by decide⟩

/-- Witness for `c3_carry_forward`: one issue created before the year
and closed in February of the year leaves every `opened` at 0, and
February indeed carries January's total forward (even though
`closed[1] = 1`). -/
theorem c3_carry_forward_witness :
    (calculateMonthlyIssueStats
        [⟨⟨2023, 5, 1⟩, some ⟨2024, 1, 2⟩, "closed", false⟩] 2024 1).total
      = (calculateMonthlyIssueStats
          [⟨⟨2023, 5, 1⟩, some ⟨2024, 1, 2⟩, "closed", false⟩] 2024 0).total :=
  (c3_carry_forward [⟨⟨2023, 5, 1⟩, some ⟨2024, 1, 2⟩, "closed", false⟩] 2024).2
    1 (by decide) (by decide)

/-! ### The aggregator (`getOrganization`, `calculateYearlyStats`) -/

/-- Commits of a contributor in `year`:
`contributor.weeks.filter(year match).reduce((sum, week) => sum + week.c, 0)`. -/
def yearCommitsOfContributor (year : Int) (c : Contributor) : Nat :=
  (c.weeks.filter (fun wk => wk.w.year == year)).foldl (fun sum wk => sum + wk.c) 0

/-- The `commitCount` of a repos-array entry: per contributor, the sum
of the year's weekly commits, summed over all contributors. -/
def repoCommitCount (year : Int) (cs : List Contributor) : Nat :=
  cs.foldl (fun sum c =>
    sum + c.weeks.foldl
      (fun weekSum wk => weekSum + (if wk.w.year == year then wk.c else 0)) 0) 0

/-- The `issues` part of a per-repository stats record. -/
structure RepoIssueStats where
  opened : Nat
  closed : Nat
  monthlyStats : Monthly

/-- The `pullRequests` part of a per-repository stats record. -/
structure RepoPRStats where
  opened : Nat
  closed : Nat
  types : List (String × Nat)

/-- One element of the aggregator's intermediate `repoStats` array. -/
structure RepoStats where
  name : String
  stars : Nat
  contributorStats : List Contributor
  issues : RepoIssueStats
  pullRequests : RepoPRStats
  createdAt : JsDate
  archivedAt : Option JsDate

/-- The `repositories` part of the yearly stats. -/
structure RepoYearCounts where
  created : Nat
  archived : Nat
deriving DecidableEq, Repr

/-- The `issues` part of the yearly stats. -/
structure IssueCounts where
  opened : Nat
  closed : Nat
deriving DecidableEq, Repr

/-- The `pullRequests` part of the yearly stats. -/
structure PRCounts where
  opened : Nat
  closed : Nat
  types : List (String × Nat)
deriving DecidableEq, Repr

/-- `StatsCalculator.calculateYearlyStats(repoStats, currentYear)`. -/
structure YearlyStats where
  repositories : RepoYearCounts
  commits : Nat
  issues : IssueCounts
  pullRequests : PRCounts
deriving DecidableEq, Repr

/-- Sums and merges the per-repository stats into the year's totals. -/
def calculateYearlyStats (repoStats : List RepoStats) (year : Int) : YearlyStats :=
  { repositories :=
      { created := (repoStats.filter (fun r => r.createdAt.year == year)).length
        archived := (repoStats.filter (fun r =>
          match r.archivedAt with
          | some d => d.year == year
          | none => false)).length }
    commits := repoStats.foldl (fun sum r =>
      sum + r.contributorStats.foldl
        (fun total c => total + yearCommitsOfContributor year c) 0) 0
    issues :=
      { opened := repoStats.foldl (fun sum r => sum + r.issues.opened) 0
        closed := repoStats.foldl (fun sum r => sum + r.issues.closed) 0 }
    pullRequests :=
      { opened := repoStats.foldl (fun sum r => sum + r.pullRequests.opened) 0
        closed := repoStats.foldl (fun sum r => sum + r.pullRequests.closed) 0
        types := repoStats.foldl (fun types r =>
          r.pullRequests.types.foldl (fun ts p => histAdd ts p.1 p.2) types) [] } }

/-- The `contributors` field of a repos-array entry.  The aggregator of
`github-repository.js` stores the *count* `contributorStats?.length || 0`
there; the earlier `getRepositories` schema stored an *array* of
`{login, contributions}` records, which is what the view model's
`Array.isArray` guard tests for. -/
inductive ContributorsField where
  | count (n : Nat)
  | array (cs : List (String × Nat))
deriving DecidableEq, Repr

/-- One entry of the report's `repos` array. -/
structure RepoOut where
  name : String
  stars : Nat
  contributors : ContributorsField
  closedIssues : Nat
  commitCount : Nat
deriving DecidableEq, Repr

/-- The assembled `OrganizationReport`. -/
structure Report where
  repos : List RepoOut
  members : List (String × Nat)
  yearlyStats : YearlyStats
  monthlyIssueStats : Monthly

/-- The remote API surface consumed by the aggregator, as response
oracles per operation (`getIssues` has its `since` timestamp already
applied); `Except.error` models a rejected promise. -/
structure Api where
  getMembers : Except Unit (List Member)
  getRepos : Except Unit (List Repo)
  getContributorStats : String → Except Unit (List Contributor)
  getIssues : String → Except Unit (List Issue)
  getPullRequests : String → Except Unit (List PullReq)

/-- The per-repository block of `getOrganization`: the three parallel
fetches, the PR exclusion, the current-year filters and the monthly
series; any rejected fetch takes the `catch` path and yields `null`
(`none`). -/
def processRepo (api : Api) (year : Int) (repo : Repo) : Option RepoStats :=
  match api.getContributorStats repo.name, api.getIssues repo.name,
      api.getPullRequests repo.name with
  | Except.ok cs, Except.ok issues, Except.ok prs =>
      let keptIssues := issues.filter (fun i => !i.pull_request)
      let yearlyIssues := keptIssues.filter (fun i => i.created_at.year == year)
      let yearlyPRs := prs.filter (fun p => p.created_at.year == year)
      some
        { name := repo.name
          stars := repo.stargazers_count
          contributorStats := cs
          issues :=
            { opened := yearlyIssues.length
              closed := (yearlyIssues.filter (fun i => i.state == "closed")).length
              monthlyStats := calculateMonthlyIssueStats keptIssues year }
          pullRequests :=
            { opened := yearlyPRs.length
              closed := (yearlyPRs.filter (fun p => p.state == "closed")).length
              types := categorizePRTypes yearlyPRs }
          createdAt := repo.created_at
          archivedAt := repo.archived_at }
  | _, _, _ => none

/-- The member-contribution fold: for every contributor entry with an
`author.login`, add the contributor's current-year commits into the
running login-to-count map. -/
def memberStatsOf (year : Int) (repoStats : List RepoStats) : List (String × Nat) :=
  repoStats.foldl (fun ms r =>
    r.contributorStats.foldl (fun ms2 c =>
      match c.author with
      | some login => histAdd ms2 login (yearCommitsOfContributor year c)
      | none => ms2) ms) []

/-- The projection of a per-repository stats record into the report's
`repos` array entry. -/
def projectRepoOut (year : Int) (r : RepoStats) : RepoOut :=
  { name := r.name
    stars := r.stars
    contributors := ContributorsField.count r.contributorStats.length
    closedIssues := r.issues.closed
    commitCount := repoCommitCount year r.contributorStats }

/-- Element-wise summation of the repositories' 12-month series. -/
def mergeMonthly (repoStats : List RepoStats) : Monthly :=
  repoStats.foldl (fun acc r => fun i =>
    { opened := (acc i).opened + (r.issues.monthlyStats i).opened
      closed := (acc i).closed + (r.issues.monthlyStats i).closed
      total := (acc i).total + (r.issues.monthlyStats i).total }) monthlyInit

/-- The observable outcome of one `getOrganization` call: its returned
value (or thrown error), the cache slot afterwards, how many network
requests were issued, and the `onProgress` invocations in order. -/
structure OrgRun where
  result : Except Unit Report
  cache : Option (CacheEntry Report)
  networkCalls : Nat
  progress : List (Nat × Nat)

/-- `GithubRepository.getOrganization(orgName, onProgress)`: consult the
cache and return a hit at once (no requests, no progress); otherwise
fetch members and repositories (2 requests; a failure of either throws),
drop forks, run the per-repository block over each own repository (3
requests each, progress `(processed, total)` after each, failures
filtered out of `repoStats`), fold member contributions, assemble the
report and save it to the cache.  `nowMs` is `new Date().getTime()` and
`year` is `new Date().getFullYear()`. -/
def getOrganization (api : Api) (orgName : String)
    (cache0 : Option (CacheEntry Report)) (nowMs : Int) (year : Int) : OrgRun :=
  match getFromCache nowMs orgName cache0 with
  | (some cachedData, cache1) => ⟨Except.ok cachedData, cache1, 0, []⟩
  | (none, cache1) =>
      match api.getMembers, api.getRepos with
      | Except.ok members, Except.ok allRepos =>
          let ownRepos := allRepos.filter (fun r => !r.fork)
          let totalRepos := ownRepos.length
          let results := ownRepos.map (processRepo api year)
          let progress := (List.range totalRepos).map (fun i => (i + 1, totalRepos))
          let repoStats := results.filterMap id
          let memberStats := memberStatsOf year repoStats
          let enhancedMembers :=
            members.map (fun mb => (mb.login, histGet memberStats mb.login))
          let result : Report :=
            { repos := repoStats.map (projectRepoOut year)
              members := enhancedMembers
              yearlyStats := calculateYearlyStats repoStats year
              monthlyIssueStats := mergeMonthly repoStats }
          ⟨Except.ok result, saveToCache nowMs orgName result cache1,
            2 + 3 * totalRepos, progress⟩
      | _, _ => ⟨Except.error (), cache1, 2, []⟩

/-- The report of a successful run (a placeholder empty report when the
run threw). -/
def reportOf (run : OrgRun) : Report :=
  match run.result with
  | Except.ok r => r
  | Except.error _ => ⟨[], [], ⟨⟨0, 0⟩, 0, ⟨0, 0⟩, ⟨0, 0, []⟩⟩, monthlyInit⟩

/-- C1 amended: with 2 non-fork repositories of which exactly one fails
its issues fetch, the run still succeeds and `onProgress` is invoked
exactly twice with a final `(2, 2)`, but the failing repository is
dropped from the report entirely (`null`-filtered), so `repos` has 1
entry, not 2. -/
theorem c1_failing_repo_omitted (api : Api) (org : String) (nowMs : Int)
    (year : Int) (r1 r2 : Repo) (members : List Member)
    (cs1 cs2 : List Contributor) (is1 : List Issue) (prs1 prs2 : List PullReq)
    (hm : api.getMembers = Except.ok members)
    (hr : api.getRepos = Except.ok [r1, r2])
    (hf1 : r1.fork = false) (hf2 : r2.fork = false)
    (hcs1 : api.getContributorStats r1.name = Except.ok cs1)
    (hi1 : api.getIssues r1.name = Except.ok is1)
    (hp1 : api.getPullRequests r1.name = Except.ok prs1)
    (hcs2 : api.getContributorStats r2.name = Except.ok cs2)
    (hi2 : api.getIssues r2.name = Except.error ())
    (hp2 : api.getPullRequests r2.name = Except.ok prs2) :
    (getOrganization api org none nowMs year).progress = [(1, 2), (2, 2)] ∧
    (reportOf (getOrganization api org none nowMs year)).repos.length = 1 ∧
    (getOrganization api org none nowMs year).result
      = Except.ok (reportOf (getOrganization api org none nowMs year)) := by
  have hpr2 : processRepo api year r2 = none := by
    unfold processRepo
    rw [hcs2, hi2, hp2]
  obtain ⟨s1, hs1⟩ : ∃ s, processRepo api year r1 = some s := by
    unfold processRepo
    rw [hcs1, hi1, hp1]
    exact ⟨_, rfl⟩
  have hfil : [r1, r2].filter (fun r => !r.fork) = [r1, r2] := by
    simp [List.filter_cons, hf1, hf2]
  refine ⟨?_, ?_, ?_⟩
  · simp only [getOrganization, getFromCache, hm, hr, hfil]
    simp [List.range_succ]
  · simp only [getOrganization, getFromCache, hm, hr, hfil, reportOf,
      List.map_cons, List.map_nil, hs1, hpr2]
    simp [List.filterMap_cons]
  · simp only [getOrganization, getFromCache, hm, hr, hfil, reportOf]

/-- Concrete C1 scenario: organization with repositories `alpha` and
`beta`, where only `beta`'s issues fetch rejects. -/
def c1api : Api :=
  { getMembers := Except.ok []
    getRepos := Except.ok [⟨"alpha", false, 3, ⟨2024, 0, 1⟩, none⟩,
      ⟨"beta", false, 1, ⟨2024, 0, 2⟩, none⟩]
    getContributorStats := fun _ => Except.ok []
    getIssues := fun name => if name == "beta" then Except.error () else Except.ok []
    getPullRequests := fun _ => Except.ok [] }

/-- The concrete C1 run. -/
def c1run : OrgRun := getOrganization c1api "org" none 0 2024

/-- C1 counterexample: in the concrete two-repository scenario with
`beta`'s issues fetch failing, the run succeeds and `onProgress` is
called twice ending in `(2, 2)`, but the report's `repos` array has a
single entry — not the 2 entries the claim states — because the failing
repository's `null` result is filtered out. -/
theorem c1_counterexample :
    c1run.progress = [(1, 2), (2, 2)] ∧
    (reportOf c1run).repos.length = 1 ∧
    (reportOf c1run).repos.length ≠ 2 ∧
    (reportOf c1run).repos = [⟨"alpha", 3, ContributorsField.count 0, 0, 0⟩] := by
  refine ⟨by decide, by decide, by decide, by decide⟩

/-- Witness for `c1_failing_repo_omitted`, instantiated at the concrete
scenario of `c1api`. -/
theorem c1_failing_repo_omitted_witness :
    c1run.progress = [(1, 2), (2, 2)] ∧
    (reportOf c1run).repos.length = 1 := by
  have h := c1_failing_repo_omitted c1api "org" 0 2024
    ⟨"alpha", false, 3, ⟨2024, 0, 1⟩, none⟩ ⟨"beta", false, 1, ⟨2024, 0, 2⟩, none⟩
    [] [] [] [] [] []
    rfl rfl rfl rfl rfl rfl rfl rfl rfl rfl
  exact ⟨h.1, h.2.1⟩

/-- C5: after `save` wrote a report for this organization and the entry
is still fresh, `getOrganization` answers from the cache: it returns
exactly the saved report, issues no network request, invokes no
progress callback, and leaves the cache slot as written. -/
theorem c5_cache_roundtrip (api : Api) (org : String) (report : Report)
    (t nowMs : Int) (year : Int) (prev : Option (CacheEntry Report))
    (hfresh : nowMs - t ≤ CACHE_EXPIRATION) :
    getOrganization api org (saveToCache t org report prev) nowMs year
      = ⟨Except.ok report, some ⟨t, org, report⟩, 0, []⟩ := by
  have hcond : ¬ ((⟨t, org, report⟩ : CacheEntry Report).orgName ≠ org ∨
      nowMs - (⟨t, org, report⟩ : CacheEntry Report).timestamp > CACHE_EXPIRATION) := by
    push_neg
    exact ⟨rfl, hfresh⟩
  have hget : getFromCache nowMs org (saveToCache t org report prev)
      = (some report, some ⟨t, org, report⟩) := by
    show (if (⟨t, org, report⟩ : CacheEntry Report).orgName ≠ org ∨
        nowMs - (⟨t, org, report⟩ : CacheEntry Report).timestamp > CACHE_EXPIRATION then
        ((none : Option Report), (none : Option (CacheEntry Report)))
      else (some report, some ⟨t, org, report⟩))
      = (some report, some ⟨t, org, report⟩)
    rw [if_neg hcond]
  unfold getOrganization
  rw [hget]

/-- An API oracle all of whose operations reject: if the cache answers,
no request is ever issued. -/
def rejectingApi : Api :=
  ⟨Except.error (), Except.error (), fun _ => Except.error (),
    fun _ => Except.error (), fun _ => Except.error ()⟩

/-- An empty report used as a concrete cached payload. -/
def emptyReport : Report :=
  ⟨[], [], ⟨⟨0, 0⟩, 0, ⟨0, 0⟩, ⟨0, 0, []⟩⟩, monthlyInit⟩

/-- Witness for `c5_cache_roundtrip`: a report saved at time 0 and read
back at time 5 is served from the cache even though every API operation
would reject. -/
theorem c5_cache_roundtrip_witness :
    getOrganization rejectingApi "acme" (saveToCache 0 "acme" emptyReport none) 5 2024
      = ⟨Except.ok emptyReport, some ⟨0, "acme", emptyReport⟩, 0, []⟩ :=
  c5_cache_roundtrip rejectingApi "acme" emptyReport 0 5 2024 none (by decide)

/-! ### View model (`Organization.getMostActiveMembers`) -/

/-- JS `Map.prototype.set`: update an existing key in place (keeping its
insertion position) or append a new one. -/
def mapSet (m : List (String × Nat)) (k : String) (v : Nat) : List (String × Nat) :=
  match m with
  | [] => [(k, v)]
  | p :: rest => if p.1 == k then (p.1, v) :: rest else p :: mapSet rest k v

/-- JS `Map.prototype.has`. -/
def mapHas (m : List (String × Nat)) (k : String) : Bool :=
  m.any (fun p => p.1 == k)

/-- JS `Map.prototype.get` under a `has` guard (0 for an absent key). -/
def mapGet (m : List (String × Nat)) (k : String) : Nat :=
  histGet m k

/-- Stable insertion for the descending-by-value JS sort
`.sort(([, a], [, b]) => b - a)`. -/
def orderedInsertDesc (a : String × Nat) : List (String × Nat) → List (String × Nat)
  | [] => [a]
  | b :: l => if b.2 ≤ a.2 then a :: b :: l else b :: orderedInsertDesc a l

/-- Stable descending sort of `(login, contributions)` entries by the
contribution count. -/
def sortDescByVal : List (String × Nat) → List (String × Nat)
  | [] => []
  | a :: l => orderedInsertDesc a (sortDescByVal l)

/-- `Organization.getMostActiveMembers(limit = 5)`: seed an
insertion-ordered map with every member at 0; for each repository whose
`contributors` field is an array, add the contributions of contributors
that are members; sort descending by count (stable) and keep the first
`limit` entries. -/
def getMostActiveMembers (repos : List RepoOut) (members : List (String × Nat))
    (limit : Nat) : List (String × Nat) :=
  let memberStats := members.foldl (fun m mb => mapSet m mb.1 0) []
  let memberStats2 := repos.foldl (fun m r =>
    match r.contributors with
    | ContributorsField.array cs =>
        cs.foldl (fun m2 c =>
          if mapHas m2 c.1 then mapSet m2 c.1 (mapGet m2 c.1 + c.2) else m2) m
    | ContributorsField.count _ => m) memberStats
  (sortDescByVal memberStats2).take limit

/-- The aggregator run feeding the C9 failing input: one member `alice`
with 5 commits inside the year on the sole repository `alpha`. -/
def c9api : Api :=
  { getMembers := Except.ok [⟨"alice"⟩]
    getRepos := Except.ok [⟨"alpha", false, 0, ⟨2024, 0, 1⟩, none⟩]
    getContributorStats := fun _ => Except.ok [⟨some "alice", [⟨⟨2024, 3, 1⟩, 5⟩]⟩]
    getIssues := fun _ => Except.ok []
    getPullRequests := fun _ => Except.ok [] }

/-- The report assembled by the aggregator on the C9 failing input. -/
def c9report : Report := reportOf (getOrganization c9api "org" none 0 2024)

/-- C9: on a report produced by the aggregator, `getMostActiveMembers`
never sees per-repository contributor arrays — the aggregator stores the
contributor *count* in the `contributors` field, so the `Array.isArray`
branch is dead and every member's total stays 0.  Here `alice` has 5
in-range commits (and the report's own `members` carries that 5), yet
the query returns her with 0 instead of ranking by the commit totals. -/
theorem c9_members_always_zero :
    c9report.members = [("alice", 5)] ∧
    c9report.repos.map (fun r => r.contributors) = [ContributorsField.count 1] ∧
    getMostActiveMembers c9report.repos c9report.members 5 = [("alice", 0)] ∧
    getMostActiveMembers c9report.repos c9report.members 5 ≠ [("alice", 5)] := by
  refine ⟨by decide, by decide, by decide, by decide⟩

/-! ### Date-range issue filtering (date-range `getOrganization`) -/

/-- The date-range aggregator's issue filter: drop pull requests, then
keep issues whose `created_at` lies in `[fromDate, toDate]`. -/
def inRangeIssues (issues : List Issue) (fromDate toDate : JsDate) : List Issue :=
  (issues.filter (fun i => !i.pull_request)).filter
    (fun i => JsDate.le fromDate i.created_at && JsDate.le i.created_at toDate)

/-- The issues the date-range aggregator counts as closed: the in-range
issues whose `state` is `"closed"`. -/
def closedInRangeIssues (issues : List Issue) (fromDate toDate : JsDate) : List Issue :=
  (inRangeIssues issues fromDate toDate).filter (fun i => i.state == "closed")

/-- C2 amended: every issue counted as opened has its `created_at` in
`[from, to]`, and every issue counted as closed has its `created_at` in
`[from, to]` and state `"closed"` — the code never constrains the
`closed_at` of a counted-closed issue to the range. -/
theorem c2_range_filter (issues : List Issue) (f t : JsDate) :
    (∀ i ∈ inRangeIssues issues f t,
      JsDate.le f i.created_at = true ∧ JsDate.le i.created_at t = true) ∧
    (∀ i ∈ closedInRangeIssues issues f t,
      (JsDate.le f i.created_at = true ∧ JsDate.le i.created_at t = true)
        ∧ i.state = "closed") := by
  constructor
  · intro i hi
    unfold inRangeIssues at hi
    have h := List.of_mem_filter hi
    exact Bool.and_eq_true_iff.mp h
  · intro i hi
    unfold closedInRangeIssues at hi
    have hstate := List.of_mem_filter hi
    have hin := List.mem_of_mem_filter hi
    have h := List.of_mem_filter hin
    exact ⟨Bool.and_eq_true_iff.mp h, by simpa using hstate⟩

/-- The C2 counterexample issue: created inside 2024, closed in June
2025, state `"closed"`. -/
def c2issue : Issue := ⟨⟨2024, 1, 1⟩, some ⟨2025, 5, 1⟩, "closed", false⟩

/-- C2 counterexample: for the range 2024-01-01 .. 2024-12-31, `c2issue`
is counted as closed although its `closed_at` (June 2025) lies outside
the range. -/
theorem c2_counterexample :
    c2issue ∈ closedInRangeIssues [c2issue] ⟨2024, 0, 1⟩ ⟨2024, 11, 31⟩ ∧
    c2issue.closed_at = some ⟨2025, 5, 1⟩ ∧
    JsDate.le (⟨2025, 5, 1⟩ : JsDate) ⟨2024, 11, 31⟩ = false := by
  refine ⟨by decide, rfl, by decide⟩

/-- Witness for `c2_range_filter` at the concrete counted-closed issue. -/
theorem c2_range_filter_witness :
    (JsDate.le (⟨2024, 0, 1⟩ : JsDate) c2issue.created_at = true ∧
      JsDate.le c2issue.created_at (⟨2024, 11, 31⟩ : JsDate) = true)
      ∧ c2issue.state = "closed" :=
  (c2_range_filter [c2issue] ⟨2024, 0, 1⟩ ⟨2024, 11, 31⟩).2 c2issue (by decide)

end OrgStats
